import Mathlib

/-!
# Verification of the `validate` request-validation library

Shallow embedding of the Go package `gostalt/validate` (files
`validation.go`, `message.go`, `rule.go`) and proofs about it.

Modelling conventions:
* Go's `url.Values` (the request's `Form`) is an association list from
  parameter name to the list of submitted values; `Values.Get` returns the
  first value, or the empty string when the key is absent or has no values.
* A Go `error` result of a check is `Option String` carrying `err.Error()`:
  `none` is a passing check, `some reason` a failing one.
* `Options` is the untyped `map[string]interface{}`; the only value kinds
  the library stores in it are ints, strings and string slices, so it is
  modelled as an association list into a small variant type, and the Go
  type assertion `o[k].(T)` becomes a typed lookup returning `Option`.
* External collaborators (the regexp engine behind `regexp.MatchString`
  and the time parser behind `time.Parse`) are abstract oracles passed as
  parameters, mirroring exactly how the Go code consumes their results.
* Go's `len` on a string counts UTF-8 bytes; `golen` reproduces that.
-/

namespace Validate

/-- A failed validation, from `message.go`: the error text of the rule that
failed together with the parameter it failed for. -/
structure Message where
  error : String
  param : String
deriving DecidableEq, Repr

/-- `url.Values`: parameter name ↦ list of submitted string values. -/
abbrev Form := List (String × List String)

/-- Key membership, the Go comma-ok test `_, exists := r.Form[param]`. -/
def Form.has (f : Form) (k : String) : Bool :=
  f.any (fun p => p.1 == k)

/-- `url.Values.Get`: first value for the key, `""` when absent or empty. -/
def Form.get (f : Form) (k : String) : String :=
  match f.find? (fun p => p.1 == k) with
  | some (_, v :: _) => v
  | _ => ""

/-- The request-view: the only part of `*http.Request` the checks read. -/
structure Request where
  form : Form

/-- The value kinds the library stores in its `Options` map. -/
inductive OptVal where
  | int (n : Int)
  | str (s : String)
  | strList (l : List String)
deriving DecidableEq, Repr

/-- `Options` from `rule.go`: an open string-keyed map of loosely typed
values consumed by individual checks. -/
abbrev Options := List (String × OptVal)

/-- The Go type assertion `o[k].(int)`: the key must be present and hold an
int, otherwise the assertion's `ok` is false. -/
def Options.getInt (o : Options) (k : String) : Option Int :=
  match o.find? (fun p => p.1 == k) with
  | some (_, OptVal.int n) => some n
  | _ => none

/-- The Go type assertion `o[k].(string)`. -/
def Options.getStr (o : Options) (k : String) : Option String :=
  match o.find? (fun p => p.1 == k) with
  | some (_, OptVal.str s) => some s
  | _ => none

/-- `CheckFunc` from `rule.go`: request, parameter name and options in, an
optional failure reason out. -/
abbrev CheckFunc := Request → String → Options → Option String

/-- Go's `len` on a string: the number of UTF-8 bytes. -/
def golen (s : String) : Nat :=
  s.data.foldl (fun n c => n + c.utf8Size) 0

/-- `Required` from `rule.go`: fails with `"<param> is required"` exactly
when the parameter key is absent from the form; the value is never read. -/
def Required : CheckFunc := fun r param _ =>
  if r.form.has param then none
  else some (param ++ " is required")

/-- `MaxLength` from `rule.go`: reads the value, takes the `length` option
(defaulting to 0 when missing or not an int) and fails when the byte length
of the value exceeds it. -/
def MaxLength : CheckFunc := fun r param o =>
  let value := r.form.get param
  let max := (o.getInt "length").getD 0
  if (golen value : Int) > max then
    some (param ++ " cannot be longer than " ++ toString max ++ " characters")
  else none

/-- `regexp.MatchString` as the Go code consumes it: the engine is an
oracle `re` sending a pattern to `none` when compilation fails and to its
matching predicate otherwise.  On compilation failure Go returns
`(false, err)`; both checks discard the error and keep only the Bool. -/
def matchString (re : String → Option (String → Bool))
    (pattern value : String) : Bool × Bool :=
  match re pattern with
  | none => (false, true)
  | some m => (m value, false)

/-- `Regex` from `rule.go`: a missing/non-string `pattern` option is the
construction failure, otherwise the check fails when the value does not
match. -/
def Regex (re : String → Option (String → Bool)) : CheckFunc :=
  fun r param o =>
    match o.getStr "pattern" with
    | none => some ("unable to create regex to validate " ++ param ++ " parameter")
    | some pattern =>
      if (matchString re pattern (r.form.get param)).1 then none
      else some (param ++ " did not match regex `" ++ pattern ++ "`")

/-- `NotRegex` from `rule.go`: same construction-failure branch as `Regex`,
then fails when the value does match. -/
def NotRegex (re : String → Option (String → Bool)) : CheckFunc :=
  fun r param o =>
    match o.getStr "pattern" with
    | none => some ("unable to create regex to validate " ++ param ++ " parameter")
    | some pattern =>
      if (matchString re pattern (r.form.get param)).1 then
        some (param ++ " must not match regex `" ++ pattern ++ "`")
      else none

/-- `DateFormat` from `rule.go`: `parses format value` is the success of
`time.Parse(format, value)` (the time library is an external collaborator).
A missing/non-string `format` option yields the fixed reason
`"unable to create date format string"`. -/
def DateFormat (parses : String → String → Bool) : CheckFunc :=
  fun r param o =>
    let value := r.form.get param
    match o.getStr "format" with
    | none => some "unable to create date format string"
    | some format =>
      if parses format value then none
      else some (param ++ " does not satisfy date format " ++ format)

/-- `Rule` from `rule.go`: the field to check, the check, its options. -/
structure Rule where
  param : String
  check : CheckFunc
  options : Options

/-- `Validator` from `validation.go`: a request plus a rule list. -/
structure Validator where
  request : Request
  rules : List Rule

/-- `Make` from `validation.go`. -/
def Make (r : Request) (rules : List Rule) : Validator :=
  { request := r, rules := rules }

/-- `Validator.Add` from `validation.go`: appends to the rule list. -/
def Validator.add (v : Validator) (rules : List Rule) : Validator :=
  { v with rules := v.rules ++ rules }

/-- One iteration of `Run`'s loop, observed: which parameter's check ran
and what it returned. -/
structure Invocation where
  param : String
  result : Option String
deriving DecidableEq, Repr

/-- The loop of `Run` in `validation.go`: for each rule in list order call
`rule.Check(v.request, rule.Param, rule.Options)` once, appending a
`Message` per failing call.  The second component is the ghost log of the
invocations the loop performs, in order. -/
def runLoop (req : Request) : List Rule → List Message × List Invocation
  | [] => ([], [])
  | rule :: rest =>
    let res := rule.check req rule.param rule.options
    let tail := runLoop req rest
    (match res with
     | some e => { error := e, param := rule.param } :: tail.1
     | none => tail.1,
     { param := rule.param, result := res } :: tail.2)

/-- `Run`'s error for an empty rule set: `fmt.Errorf("no rules defined on
validator")`. -/
def noRulesErr : String := "no rules defined on validator"

/-- `Run`'s error when at least one rule failed: `errors.New("validation
failed")`. -/
def validationFailedErr : String := "validation failed"

/-- `Validator.Run` from `validation.go`: empty rule list fails at once
with `noRulesErr` and no messages; otherwise the loop runs and the result
is the collected messages paired with `validationFailedErr` when there is
at least one, or `(nil, nil)` on full success. -/
def Validator.run (v : Validator) : List Message × Option String :=
  if v.rules.length == 0 then ([], some noRulesErr)
  else
    let vm := (runLoop v.request v.rules).1
    if vm.length > 0 then (vm, some validationFailedErr)
    else ([], none)

/-- `Run` as state passing: the Go method takes `*Validator` but assigns
none of its fields (`vm` is a local), so the validator it leaves behind is
the one it received. -/
def Validator.runMut (v : Validator) :
    (List Message × Option String) × Validator :=
  (v.run, v)

/-- JSON values, the shape `json.Marshal` produces (only the constructors
the library's payload uses). -/
inductive Json where
  | str (s : String)
  | arr (xs : List Json)
  | obj (fields : List (String × Json))

/-- `json.Marshal` of a `Message` value: struct fields in declaration
order under their tags `error`, `param`. -/
def Message.toJson (m : Message) : Json :=
  Json.obj [("error", Json.str m.error), ("param", Json.str m.param)]

/-- The response `Respond` writes: status code, content type, JSON body. -/
structure Response where
  status : Nat
  contentType : String
  body : Json

/-- `Respond` from `validation.go`: sets `Content-Type: application/json`,
writes status 422, and marshals the one-key map `{"errors": m}` where `m`
is the message slice. -/
def Respond (m : List Message) : Response :=
  let eb : List (String × List Message) := [("errors", m)]
  { status := 422
    contentType := "application/json"
    body := Json.obj (eb.map (fun kv => (kv.1, Json.arr (kv.2.map Message.toJson)))) }

/-- The body shape the spec claims: `{"errors": {field: [reason, ...]}}`,
an object whose single `errors` member is an object mapping each field to
an array of strings.  Written from the spec's words, to be compared with
what `Respond` actually produces. -/
def specClaimedBodyShape : Response → Bool := fun resp =>
  match resp.body with
  | Json.obj [("errors", Json.obj groups)] =>
    groups.all (fun kv =>
      match kv.2 with
      | Json.arr xs =>
        xs.all (fun j => match j with | Json.str _ => true | _ => false)
      | _ => false)
  | _ => false

/-- Substring test on the underlying character lists (used to state that a
failure reason names a field): does `pat` occur contiguously in `s`? -/
def startsWithSeq : List Char → List Char → Bool
  | _, [] => true
  | [], _ :: _ => false
  | a :: as, b :: bs => a == b && startsWithSeq as bs

/-- Whether `pat` occurs as a contiguous subsequence of `s`. -/
def containsSeq : List Char → List Char → Bool
  | [], pat => pat.isEmpty
  | s@(_ :: rest), pat => startsWithSeq s pat || containsSeq rest pat

/-- Whether string `pat` occurs inside string `s`. -/
def strMentions (s pat : String) : Bool :=
  containsSeq s.data pat.data

/-! ## Basic facts about the run loop -/

/-- The ghost log of `Run`'s loop: each rule's check is invoked exactly
once, in rule-list order, with that rule's parameter and options. -/
theorem runLoop_log (req : Request) (rules : List Rule) :
    (runLoop req rules).2
      = rules.map (fun rule =>
          { param := rule.param
            result := rule.check req rule.param rule.options }) := by
  induction rules with
  | nil => rfl
  | cons rule rest ih =>
    simp only [runLoop, List.map_cons]
    exact congrArg _ ih

/-- The messages `Run`'s loop collects: one per failing check invocation,
in rule-list order. -/
theorem runLoop_messages (req : Request) (rules : List Rule) :
    (runLoop req rules).1
      = rules.filterMap (fun rule =>
          (rule.check req rule.param rule.options).map
            (fun e => { error := e, param := rule.param })) := by
  induction rules with
  | nil => rfl
  | cons rule rest ih =>
    simp only [runLoop, List.filterMap_cons]
    cases h : rule.check req rule.param rule.options <;> simp [h, ih]

/-- The messages `Run` returns are exactly the loop's collected messages
(the empty-ruleset and all-passing branches return the empty slice, which
coincides with the loop's output there). -/
theorem run_fst (v : Validator) :
    v.run.1 = (runLoop v.request v.rules).1 := by
  unfold Validator.run
  by_cases h : v.rules.length == 0
  · have hnil : v.rules = [] := by
      simpa using List.length_eq_zero.mp (by simpa using h)
    simp [h, hnil, runLoop]
  · simp only [h, if_false, Bool.false_eq_true]
    by_cases h2 : (runLoop v.request v.rules).1.length > 0
    · simp [h2]
    · have hnil : (runLoop v.request v.rules).1 = [] :=
        List.length_eq_zero.mp (by omega)

      simp [h2, hnil]

/-! ## Claims about the Validator -/

/-- C2: for every Validator whose rule list is empty, `Run` returns the
no-rules-configured outcome — the error `"no rules defined on validator"`,
distinguishable from the `"validation failed"` outcome — with no Message
entries, and the loop performs no check invocation at all. -/
theorem run_empty_rules_no_rules_error (v : Validator) (h : v.rules = []) :
    v.run = ([], some noRulesErr) ∧
    noRulesErr ≠ validationFailedErr ∧
    (runLoop v.request v.rules).2 = [] := by
  refine ⟨?_, by decide, ?_⟩
  · simp [Validator.run, h]
  · simp [h, runLoop]

/-- Witness for C2: a concrete rule-less validator. -/
theorem run_empty_rules_witness :
    (Make { form := [] } []).run = ([], some noRulesErr) :=
  (run_empty_rules_no_rules_error (Make { form := [] } []) rfl).1

/-- C3: for every Validator with a non-empty rule list, `Run` invokes each
rule's check exactly once in rule-list order (the invocation log is the
rule list itself), records exactly one failure reason per failing check
invocation (the collected messages are the failing invocations in order),
and returns the validation-failed outcome paired with the populated
message list iff at least one check failed, else success with no
messages. -/
theorem run_nonempty_invokes_each_rule_once (v : Validator)
    (h : v.rules ≠ []) :
    (runLoop v.request v.rules).2
      = v.rules.map (fun rule =>
          { param := rule.param
            result := rule.check v.request rule.param rule.options }) ∧
    (runLoop v.request v.rules).1
      = v.rules.filterMap (fun rule =>
          (rule.check v.request rule.param rule.options).map
            (fun e => { error := e, param := rule.param })) ∧
    ((runLoop v.request v.rules).1 ≠ [] →
      v.run = ((runLoop v.request v.rules).1, some validationFailedErr)) ∧
    ((runLoop v.request v.rules).1 = [] → v.run = ([], none)) := by
  have hlen : ¬ (v.rules.length == 0) = true := by
    simpa using fun hc => h (List.length_eq_zero.mp hc)
  refine ⟨runLoop_log v.request v.rules, runLoop_messages v.request v.rules,
    fun hne => ?_, fun hnil => ?_⟩
  · have hpos : (runLoop v.request v.rules).1.length > 0 :=
      List.length_pos.mpr hne
    simp [Validator.run, hlen, hpos]
  · simp [Validator.run, hlen, hnil]

/-- Witness for C3: one failing and one passing rule; the run returns the
single failure message and the validation-failed error. -/
theorem run_nonempty_witness :
    (Make { form := [] }
        [{ param := "forename", check := fun _ _ _ => some "forced failure",
           options := [] },
         { param := "surname", check := fun _ _ _ => none,
           options := [] }]).run
      = ([{ error := "forced failure", param := "forename" }],
         some validationFailedErr) := by
  have h := run_nonempty_invokes_each_rule_once
    (Make { form := [] }
        [{ param := "forename", check := fun _ _ _ => some "forced failure",
           options := [] },
         { param := "surname", check := fun _ _ _ => none,
           options := [] }])
    (List.cons_ne_nil _ _)
  exact h.2.2.1 (by simp [runLoop])

/-- C5: `Run` takes the validator by reference but never assigns its
fields, so in the state-passing embedding the validator it returns is the
one it received, and a second run on that returned validator produces a
structurally identical message list and the same outcome. -/
theorem run_idempotent (v : Validator) :
    (v.runMut.2).runMut.1 = v.runMut.1 ∧ v.runMut.2 = v :=
  ⟨rfl, rfl⟩

/-- The messages of a run restricted to one field, in rule-list order:
filtering the returned messages by a field keeps exactly the failing
checks of the rules declared on that field, in declaration order. -/
theorem run_filter_field (w : Validator) (g : String) :
    w.run.1.filter (fun m => m.param == g)
      = w.rules.filterMap (fun rule =>
          if rule.param == g then
            (rule.check w.request rule.param rule.options).map
              (fun e => { error := e, param := rule.param })
          else none) := by
  rw [run_fst, runLoop_messages]
  induction w.rules with
  | nil => rfl
  | cons rule rest ih =>
    simp only [List.filterMap_cons]
    cases hc : rule.check w.request rule.param rule.options with
    | none => simpa using ih
    | some e => by_cases hg : rule.param == g <;> simp [hg, ih]

/-- C4: for a Validator holding two rules on the same field whose checks
both fail, the run's messages for that field are exactly the two failure
messages in rule-declaration order; in general the per-field failure list
follows rule-list order, and `Add` appends rules without deduplication,
preserving order. -/
theorem run_same_field_two_failures_ordered
    (v : Validator) (f : String) (r₁ r₂ : Rule) (e₁ e₂ : String)
    (hrules : v.rules = [r₁, r₂])
    (hp₁ : r₁.param = f) (hp₂ : r₂.param = f)
    (hc₁ : r₁.check v.request r₁.param r₁.options = some e₁)
    (hc₂ : r₂.check v.request r₂.param r₂.options = some e₂) :
    v.run.1.filter (fun m => m.param == f)
      = [{ error := e₁, param := f }, { error := e₂, param := f }] ∧
    (∀ (w : Validator) (extra : List Rule),
      (w.add extra).rules = w.rules ++ extra) ∧
    (∀ (w : Validator) (g : String),
      w.run.1.filter (fun m => m.param == g)
        = w.rules.filterMap (fun rule =>
            if rule.param == g then
              (rule.check w.request rule.param rule.options).map
                (fun e => { error := e, param := rule.param })
            else none)) := by
  refine ⟨?_, fun w extra => rfl, fun w g => run_filter_field w g⟩
  have hc₁' : r₁.check v.request f r₁.options = some e₁ := hp₁ ▸ hc₁
  have hc₂' : r₂.check v.request f r₂.options = some e₂ := hp₂ ▸ hc₂
  rw [run_filter_field v f, hrules]
  simp [List.filterMap_cons, hp₁, hp₂, hc₁', hc₂']

/-- Witness for C4: two always-failing rules on `forename`; the field's
failure list has length two, in declaration order. -/
theorem run_same_field_witness :
    (Make { form := [] }
        [{ param := "forename", check := fun _ _ _ => some "first failure",
           options := [] },
         { param := "forename", check := fun _ _ _ => some "second failure",
           options := [] }]).run.1.filter (fun m => m.param == "forename")
      = [{ error := "first failure", param := "forename" },
         { error := "second failure", param := "forename" }] :=
  (run_same_field_two_failures_ordered
    (Make { form := [] }
        [{ param := "forename", check := fun _ _ _ => some "first failure",
           options := [] },
         { param := "forename", check := fun _ _ _ => some "second failure",
           options := [] }])
    "forename" _ _ "first failure" "second failure"
    rfl rfl rfl rfl rfl).1

/-- C9: a field appearing in the returned messages carries at least one
failure reason, and a field none of whose rules failed (in particular a
field with no rules at all) is absent from the returned messages. -/
theorem run_message_no_empty_entries (v : Validator) (f : String) :
    (f ∈ v.run.1.map (fun m => m.param) →
      1 ≤ (v.run.1.filter (fun m => m.param == f)).length) ∧
    ((∀ r ∈ v.rules, r.param = f →
        r.check v.request r.param r.options = none) →
      f ∉ v.run.1.map (fun m => m.param)) := by
  constructor
  · intro hf
    obtain ⟨m, hm, hpar⟩ := List.mem_map.mp hf
    have hmem : m ∈ v.run.1.filter (fun m => m.param == f) :=
      List.mem_filter.mpr ⟨hm, by simp [hpar]⟩
    exact List.length_pos.mpr (List.ne_nil_of_mem hmem)
  · intro hall hf
    obtain ⟨m, hm, hpar⟩ := List.mem_map.mp hf
    rw [run_fst, runLoop_messages] at hm
    obtain ⟨rule, hrule, hsome⟩ := List.mem_filterMap.mp hm
    rw [Option.map_eq_some'] at hsome
    obtain ⟨e, hc, hmsg⟩ := hsome
    have hpf : rule.param = f := by
      have hthis := hpar
      rw [← hmsg] at hthis
      exact hthis
    rw [hall rule hrule hpf] at hc
    exact Option.noConfusion hc

/-- Witness for C9: one failing rule on `a`, one passing rule on `b`;
field `a` has a nonempty failure list and field `b` is absent. -/
theorem run_message_no_empty_entries_witness :
    1 ≤ ((Make { form := [] }
        [{ param := "a", check := fun _ _ _ => some "a failed",
           options := [] },
         { param := "b", check := fun _ _ _ => none,
           options := [] }]).run.1.filter (fun m => m.param == "a")).length ∧
    "b" ∉ (Make { form := [] }
        [{ param := "a", check := fun _ _ _ => some "a failed",
           options := [] },
         { param := "b", check := fun _ _ _ => none,
           options := [] }]).run.1.map (fun m => m.param) := by
  constructor
  · exact (run_message_no_empty_entries _ "a").1
      (by simp [Make, Validator.run, runLoop])
  · exact (run_message_no_empty_entries _ "b").2
      (by
        intro r hr hp
        rcases List.mem_cons.mp hr with rfl | hr2
        · exact absurd hp (by decide)
        · rcases List.mem_cons.mp hr2 with rfl | h3
          · rfl
          · exact absurd h3 (List.not_mem_nil _))

/-! ## Substring facts used to state that a reason names a field -/

/-- A list starts with itself followed by anything. -/
theorem startsWithSeq_append (p r : List Char) :
    startsWithSeq (p ++ r) p = true := by
  induction p with
  | nil => simp [startsWithSeq]
  | cons a as ih => simp [startsWithSeq, ih]

/-- A list occurs at the head of itself followed by anything. -/
theorem containsSeq_head (p r : List Char) :
    containsSeq (p ++ r) p = true := by
  cases p with
  | nil => cases r <;> simp [containsSeq, startsWithSeq]
  | cons a as =>
    simp only [containsSeq, List.cons_append, Bool.or_eq_true]
    exact Or.inl (startsWithSeq_append (a :: as) r)

/-- A list occurs at the tail of anything followed by itself. -/
theorem containsSeq_suffix (r p : List Char) :
    containsSeq (r ++ p) p = true := by
  induction r with
  | nil => simpa using containsSeq_head p []
  | cons a r ih => simp [containsSeq, ih]

/-- A string that begins with `pat` mentions `pat`. -/
theorem strMentions_of_eq_append (s pat rest : String) (h : s = pat ++ rest) :
    strMentions s pat = true := by
  subst h
  unfold strMentions
  rw [String.data_append]
  exact containsSeq_head _ _

/-- A string that ends with `pat` mentions `pat`. -/
theorem strMentions_of_eq_append_right (s pre pat : String)
    (h : s = pre ++ pat) : strMentions s pat = true := by
  subst h
  unfold strMentions
  rw [String.data_append]
  exact containsSeq_suffix _ _

/-- A list occurs in the middle of anything surrounding it. -/
theorem containsSeq_middle (x pat y : List Char) :
    containsSeq (x ++ (pat ++ y)) pat = true := by
  induction x with
  | nil => simpa using containsSeq_head pat y
  | cons a x ih => simp [containsSeq, ih]

/-- A string containing `pat` between two pieces mentions `pat`. -/
theorem strMentions_of_eq_middle (s pre pat post : String)
    (h : s = pre ++ (pat ++ post)) : strMentions s pat = true := by
  subst h
  unfold strMentions
  rw [String.data_append, String.data_append]
  exact containsSeq_middle _ _ _

/-! ## Claims about individual checks -/

/-- C6: `Required` passes exactly when the field name is present in the
request's parameter set (so a present-but-empty value passes), and on an
absent field it fails with a reason that is the field name followed by
`" is required"`, hence names the field. -/
theorem required_iff_present (req : Request) (param : String) (o : Options) :
    (Required req param o = none ↔ req.form.has param = true) ∧
    (req.form.has param = false →
      Required req param o = some (param ++ " is required") ∧
      strMentions (param ++ " is required") param = true) := by
  constructor
  · by_cases h : req.form.has param <;> simp [Required, h]
  · intro h
    refine ⟨by simp [Required, h], strMentions_of_eq_append _ _ _ rfl⟩

/-- Witness for C6: the field `f` present with the empty string passes;
an absent `f` fails with `"f is required"`. -/
theorem required_witness :
    Required { form := [("f", [""])] } "f" [] = none ∧
    Required { form := [] } "f" [] = some "f is required" := by
  constructor
  · exact (required_iff_present { form := [("f", [""])] } "f" []).1.mpr
      (by decide)
  · exact ((required_iff_present { form := [] } "f" []).2 (by decide)).1

/-- C7 counterexample: with `length = 1`, the value `"é"` has character
length 1, within the claimed limit, yet `MaxLength` fails — Go's `len`
counts UTF-8 bytes (2 for `"é"`), not characters. -/
theorem maxLength_counts_bytes_not_chars :
    "é".length = 1 ∧ golen "é" = 2 ∧
    MaxLength { form := [("p", ["é"])] } "p" [("length", OptVal.int 1)]
      = some "p cannot be longer than 1 characters" := by
  refine ⟨by decide, by decide, by decide⟩

/-- C7 (amended): `MaxLength` passes exactly when the UTF-8 byte length of
the field's value (Go's `len`, equal to the character count for ASCII
values) is ≤ `options.length`, the limit defaulting to 0 when the option
is missing or not an int; on failure the reason names the field and the
limit.  With `length = 5`, `"aaaa"` passes and `"too long by half"`
fails. -/
theorem maxLength_byte_length_spec (req : Request) (param : String)
    (o : Options) :
    (MaxLength req param o = none ↔
      (golen (req.form.get param) : Int) ≤ (o.getInt "length").getD 0) ∧
    ((golen (req.form.get param) : Int) > (o.getInt "length").getD 0 →
      MaxLength req param o
        = some (param ++ " cannot be longer than "
            ++ toString ((o.getInt "length").getD 0) ++ " characters") ∧
      strMentions (param ++ " cannot be longer than "
            ++ toString ((o.getInt "length").getD 0) ++ " characters")
          param = true ∧
      strMentions (param ++ " cannot be longer than "
            ++ toString ((o.getInt "length").getD 0) ++ " characters")
          (toString ((o.getInt "length").getD 0)) = true) := by
  constructor
  · by_cases hgt : (golen (req.form.get param) : Int)
        > (o.getInt "length").getD 0
    · simp only [MaxLength, if_pos hgt]
      constructor
      · intro h; exact Option.noConfusion h
      · intro h; omega
    · simp only [MaxLength, if_neg hgt]
      constructor
      · intro _; omega
      · intro _; trivial
  · intro hgt
    refine ⟨by simp only [MaxLength, if_pos hgt], ?_, ?_⟩
    · exact strMentions_of_eq_append _ _
        (" cannot be longer than "
          ++ toString ((o.getInt "length").getD 0) ++ " characters")
        (by apply String.ext; simp [String.data_append])
    · exact strMentions_of_eq_middle _
        (param ++ " cannot be longer than ")
        (toString ((o.getInt "length").getD 0)) " characters"
        (by apply String.ext; simp [String.data_append])

/-- Witness for C7: the spec's own examples at `length = 5`. -/
theorem maxLength_spec_witness :
    MaxLength { form := [("p", ["aaaa"])] } "p" [("length", OptVal.int 5)]
      = none ∧
    MaxLength { form := [("p", ["too long by half"])] } "p"
        [("length", OptVal.int 5)]
      = some "p cannot be longer than 5 characters" := by
  constructor
  · exact (maxLength_byte_length_spec { form := [("p", ["aaaa"])] } "p"
      [("length", OptVal.int 5)]).1.mpr (by decide)
  · have h := ((maxLength_byte_length_spec
      { form := [("p", ["too long by half"])] } "p"
      [("length", OptVal.int 5)]).2 (by decide)).1
    exact h.trans (by decide)

/-- C8 counterexample: with the `format` option missing, `DateFormat`
fails with the fixed reason `"unable to create date format string"`, which
does not mention the field (`dob`) at all — so not every failure reason it
returns names the field. -/
theorem dateFormat_missing_format_reason_lacks_field :
    DateFormat (fun _ _ => false) { form := [] } "dob" []
      = some "unable to create date format string" ∧
    strMentions "unable to create date format string" "dob" = false := by
  exact ⟨rfl, by decide⟩

/-- C8 (amended): `DateFormat` passes exactly when a string `format`
option is present and the value parses against that exact layout; a
missing or wrong-typed format is itself a failure, with the fixed reason
`"unable to create date format string"` (which names neither the field
nor a format), while a parse failure yields a reason naming both the
field and the format string. -/
theorem dateFormat_spec (parses : String → String → Bool) (req : Request)
    (param : String) (o : Options) :
    (o.getStr "format" = none →
      DateFormat parses req param o
        = some "unable to create date format string") ∧
    (∀ format, o.getStr "format" = some format →
      (DateFormat parses req param o = none ↔
        parses format (req.form.get param) = true) ∧
      (parses format (req.form.get param) = false →
        DateFormat parses req param o
          = some (param ++ " does not satisfy date format " ++ format) ∧
        strMentions (param ++ " does not satisfy date format " ++ format)
          param = true ∧
        strMentions (param ++ " does not satisfy date format " ++ format)
          format = true)) := by
  constructor
  · intro h
    simp [DateFormat, h]
  · intro format h
    constructor
    · by_cases hp : parses format (req.form.get param)
        <;> simp [DateFormat, h, hp]
    · intro hp
      refine ⟨by simp [DateFormat, h, hp], ?_, ?_⟩
      · exact strMentions_of_eq_append _ _
          (" does not satisfy date format " ++ format)
          (by apply String.ext; simp [String.data_append])
      · exact strMentions_of_eq_append_right _
          (param ++ " does not satisfy date format ") _ rfl

/-- Witness for C8: a concrete format option and a value its (concrete)
parser rejects. -/
theorem dateFormat_spec_witness :
    DateFormat (fun _ v => v == "1993-10-18")
        { form := [("dob", ["nope"])] } "dob"
        [("format", OptVal.str "2006-01-02")]
      = some "dob does not satisfy date format 2006-01-02" := by
  have h := (((dateFormat_spec (fun _ v => v == "1993-10-18")
      { form := [("dob", ["nope"])] } "dob"
      [("format", OptVal.str "2006-01-02")]).2 "2006-01-02" rfl).2
      (by decide)).1
  exact h.trans (by decide)

/-- C10: when the `pattern` option holds a pattern the regex engine cannot
compile, `regexp.MatchString`'s error is discarded and its `false` match
result kept, so `NotRegex` reports no failure on every input (a
misconfigured `NotRegex` rule validates everything), while `Regex` with
the same options reports the ordinary did-not-match failure, not a
construction error. -/
theorem notRegex_invalid_pattern_passes_regex_fails
    (re : String → Option (String → Bool)) (o : Options) (pattern : String)
    (hpat : o.getStr "pattern" = some pattern)
    (hbad : re pattern = none) :
    ∀ (req : Request) (param : String),
      NotRegex re req param o = none ∧
      Regex re req param o
        = some (param ++ " did not match regex `" ++ pattern ++ "`") := by
  intro req param
  constructor
  · simp [NotRegex, hpat, matchString, hbad]
  · simp [Regex, hpat, matchString, hbad]

/-- Witness for C10: an engine rejecting the pattern `"("`; `NotRegex`
passes the value while `Regex` reports the ordinary match failure. -/
theorem notRegex_invalid_pattern_witness :
    NotRegex (fun _ => none) { form := [("p", ["anything"])] } "p"
        [("pattern", OptVal.str "(")] = none ∧
    Regex (fun _ => none) { form := [("p", ["anything"])] } "p"
        [("pattern", OptVal.str "(")]
      = some "p did not match regex `(`" := by
  have h := notRegex_invalid_pattern_passes_regex_fails (fun _ => none)
      [("pattern", OptVal.str "(")] "(" rfl rfl
      { form := [("p", ["anything"])] } "p"
  exact ⟨h.1, h.2.trans (by decide)⟩

/-! ## Claims about the response writer -/

/-- C1 counterexample: on a concrete non-empty message list, the body
`Respond` writes is `{"errors": [{"error": ..., "param": ...}]}` — the
`errors` member is an array of message objects, not the object mapping
each field to an array of reason strings the spec claims. -/
theorem respond_body_not_object_of_arrays :
    specClaimedBodyShape
        (Respond [{ error := "name is required", param := "name" }])
      = false ∧
    (Respond [{ error := "name is required", param := "name" }]).body
      = Json.obj [("errors", Json.arr
          [Json.obj [("error", Json.str "name is required"),
                     ("param", Json.str "name")]])] := by
  exact ⟨rfl, rfl⟩

/-- C1 (amended): for every non-empty message list, the written response
has status 422 and `Content-Type: application/json`, and its body is
`{"errors": m}` where `m` is marshalled as an array of objects, each with
the message's `error` and `param` members — never the spec's
object-of-arrays shape. -/
theorem respond_status_content_and_body_shape (m : List Message)
    (_h : m ≠ []) :
    (Respond m).status = 422 ∧
    (Respond m).contentType = "application/json" ∧
    (Respond m).body
      = Json.obj [("errors", Json.arr (m.map Message.toJson))] ∧
    specClaimedBodyShape (Respond m) = false := by
  refine ⟨rfl, rfl, rfl, rfl⟩

/-- Witness for C1: the amended shape at a concrete one-message list. -/
theorem respond_shape_witness :
    (Respond [{ error := "name is required", param := "name" }]).status
      = 422 ∧
    (Respond [{ error := "name is required", param := "name" }]).contentType
      = "application/json" := by
  have h := respond_status_content_and_body_shape
    [{ error := "name is required", param := "name" }]
    (List.cons_ne_nil _ _)
  exact ⟨h.1, h.2.1⟩

end Validate
